import Mathlib

/-!
Verification development for the go-notdiamond reliability middleware.

The definitions below form a shallow embedding of the routing and retry
engine: configuration validation, the retry-budget computation, the
rolling-latency health check, the provider adapter, the backoff schedule,
the public entry point body/context handling, and the JSON extraction
helpers. Functions present in the sources are translated directly;
functions whose implementation is only exercised by the tests are
modelled from the specification and are marked as such in their
doc comments.
-/

namespace NotDiamond

/-! ## String splitting, as performed by the Go standard library.
The validation code splits model identifiers on a single slash
character, so only the single-character separator case is embedded. -/

/-- Splits a character list on the slash character, mirroring the Go
standard library function on a one-character separator: the empty
string yields one empty part, and a trailing separator yields a final
empty part. -/
def splitSlashChars : List Char → List (List Char)
  | [] => [[]]
  | c :: cs =>
    if c = '/' then [] :: splitSlashChars cs
    else
      match splitSlashChars cs with
      | [] => [[c]]
      | p :: ps => (c :: p) :: ps

/-- Splits a string on the slash character. -/
def goSplitSlash (s : String) : List String :=
  (splitSlashChars s.data).map (fun l => ⟨l⟩)

/-! ## Configuration validation, embedded from validations.go. -/

/-- Provider name constant for Azure. Modelled from the spec: the
constant declarations live outside the given sources, but the
specification fixes the provider set to openai and azure. -/
def ClientTypeAzure : String := "azure"

/-- Provider name constant for OpenAI. Modelled from the spec: the
constant declarations live outside the given sources, but the
specification fixes the provider set to openai and azure. -/
def ClientTypeOpenAI : String := "openai"

/-- Embeds validateProvider from validations.go. Returns some error
message on rejection and none on success, as the Go function returns
an error or nil. -/
def validateProvider (provider : String) : Option String :=
  if provider = ClientTypeAzure ∨ provider = ClientTypeOpenAI then none
  else some ("unknown provider: " ++ provider)

/-- Embeds validateModelName from validations.go: an empty string is
rejected, the string is split on the slash, exactly two parts are
required, and the first part must be a known provider. -/
def validateModelName (model : String) : Option String :=
  if model = "" then some "empty model name not allowed"
  else
    match goSplitSlash model with
    | [provider, _] =>
      match validateProvider provider with
      | some e => some ("invalid provider in model " ++ model ++ ": " ++ e)
      | none => none
    | _ => some ("invalid model format: " ++ model ++ " (expected provider/model)")

/-- Embeds validateModelNames from validations.go: the first failing
name decides the result. -/
def validateModelNames (models : List String) : Option String :=
  match models with
  | [] => none
  | m :: ms =>
    match validateModelName m with
    | some e => some e
    | none => validateModelNames ms

/-- Tolerance used by the weight-sum check in validations.go. -/
def weightEpsilon : ℚ := 1 / 1000000

/-- Embeds validateWeights from validations.go: every weight must be
strictly positive and the total must lie within the tolerance of one.
Weighted models are embedded as an association list; Go iterates a map
in unspecified order, which affects only the reported message, not
acceptance. -/
def validateWeights (models : List (String × ℚ)) : Option String :=
  match models.find? (fun p => decide (p.2 ≤ 0)) with
  | some p => some ("model " ++ p.1 ++ " has invalid weight (must be positive)")
  | none =>
    let total := (models.map Prod.snd).sum
    if total < 1 - weightEpsilon ∨ total > 1 + weightEpsilon then
      some "model weights must sum to 1.0"
    else none

/-- Embeds validateWeightedModels from validations.go: a non-empty
model list, valid weights, then valid model names. -/
def validateWeightedModels (models : List (String × ℚ)) : Option String :=
  if models.isEmpty then some "at least one model must be provided"
  else
    match validateWeights models with
    | some e => some e
    | none => validateModelNames (models.map Prod.fst)

/-- Embeds validateOrderedModels from validations.go. -/
def validateOrderedModels (models : List String) : Option String :=
  if models.isEmpty then some "at least one model must be provided"
  else validateModelNames models

/-! ## Retry budget computation. -/

/-- Looks up a key in an association list, mirroring a Go map access. -/
def alistLookup {α : Type} (k : String) (l : List (String × α)) : Option α :=
  (l.find? (fun p => p.1 == k)).map Prod.snd

/-- Status-code retry policy, the tagged form of the dynamic Go value:
absent, a global status-to-budget map, or a per-model map of
status-to-budget maps. Status keys are decimal strings, as in the Go
configuration maps. -/
inductive StatusCodeRetryPolicy where
  | absent : StatusCodeRetryPolicy
  | global (m : List (String × Nat)) : StatusCodeRetryPolicy
  | perModel (m : List (String × List (String × Nat))) : StatusCodeRetryPolicy

/-- Modelled from the spec: getMaxRetriesForStatus, whose implementation
is outside the given sources (only its tests are present). Per the
specification, a per-model entry for the model and status wins, then a
global entry for the status, then the MaxRetries entry for the model,
defaulting to one. Status codes are rendered in decimal to index the
string-keyed configuration maps. -/
def getMaxRetriesForStatus (maxRetries : List (String × Nat))
    (statusCodeRetry : StatusCodeRetryPolicy)
    (modelFull : String) (statusCode : Nat) : Nat :=
  match statusCodeRetry with
  | .perModel pm =>
    match alistLookup modelFull pm with
    | some statusMap =>
      match alistLookup (toString statusCode) statusMap with
      | some v => v
      | none => (alistLookup modelFull maxRetries).getD 1
    | none => (alistLookup modelFull maxRetries).getD 1
  | .global g =>
    match alistLookup (toString statusCode) g with
    | some v => v
    | none => (alistLookup modelFull maxRetries).getD 1
  | .absent => (alistLookup modelFull maxRetries).getD 1

/-! ## Health store model. -/

/-- Health configuration scalars. Times and latencies are in seconds. -/
structure HealthConfig where
  noOfCalls : Nat
  recoveryTime : ℚ
  avgLatencyThreshold : ℚ

/-- One persisted latency record. -/
structure LatencyRecord where
  timestamp : ℚ
  model : String
  latency : ℚ

/-- Window size actually used by a health query: at most ten records. -/
def effectiveNoOfCalls (n : Nat) : Nat := min n 10

/-- Recovery window actually used by a health query: at most one hour
(3600 seconds). -/
def effectiveRecoveryWindow (t : ℚ) : ℚ := min t 3600

/-- Latencies of the most recent records considered by a health query:
records for the model whose timestamps fall within the clamped
recovery window of now, newest first, limited to the clamped window
size. The store list is kept in insertion order, oldest first. -/
def recentLatencies (store : List LatencyRecord) (modelFull : String)
    (now : ℚ) (cfg : HealthConfig) : List ℚ :=
  (((store.filter (fun r =>
      (r.model == modelFull) &&
      decide (now - effectiveRecoveryWindow cfg.recoveryTime < r.timestamp))).reverse).take
    (effectiveNoOfCalls cfg.noOfCalls)).map LatencyRecord.latency

/-- Modelled from the spec: CheckModelHealth of the metrics tracker,
whose implementation is outside the given sources (only its tests are
present). Healthy when no qualifying records exist, otherwise healthy
exactly when the arithmetic mean latency of the qualifying records is
strictly below the threshold. -/
def CheckModelHealth (store : List LatencyRecord) (modelFull : String)
    (cfg : HealthConfig) (now : ℚ) : Bool :=
  let ls := recentLatencies store modelFull now cfg
  if ls.length = 0 then true
  else decide (ls.sum / (ls.length : ℚ) < cfg.avgLatencyThreshold)

/-! ## Provider adapter. -/

/-- Message: a role/content style string map, as in the Go code. -/
def Message := List (String × String)

/-- Pre-registered provider base request: URL pieces plus headers. -/
structure ProviderTemplate where
  scheme : String
  host : String
  pathAndQuery : String
  headers : List (String × String)

/-- Full URL of a template. -/
def templateURL (t : ProviderTemplate) : String :=
  t.scheme ++ "://" ++ t.host ++ t.pathAndQuery

/-- Reads a header value. -/
def headerGet (hs : List (String × String)) (k : String) : Option String :=
  alistLookup k hs

/-- Sets a header value, replacing any existing entries for the key. -/
def headerSet (hs : List (String × String)) (k v : String) : List (String × String) :=
  (k, v) :: hs.filter (fun p => !(p.1 == k))

/-- Deletes a header. -/
def headerDel (hs : List (String × String)) (k : String) : List (String × String) :=
  hs.filter (fun p => !(p.1 == k))

/-- Outbound wire request produced by the adapter: URL and headers.
The body rewriting is not needed by the claims settled here. -/
structure WireRequest where
  url : String
  headers : List (String × String)

/-- Modelled from the spec: the provider-specific request construction
performed inside tryNextModel, whose implementation is outside the
given sources (only its tests are present). For azure the URL is
rebuilt from the template scheme and host with the deployments path
for the short model name, and the template headers (including api-key)
are kept; for openai the template URL is kept, the api-key header is
moved into a bearer Authorization header; both set the JSON content
type. An unknown provider yields none. -/
def buildProviderRequest (provider : String) (t : ProviderTemplate)
    (shortName : String) : Option WireRequest :=
  if provider = "azure" then
    some { url := t.scheme ++ "://" ++ t.host ++ "/openai/deployments/" ++
                  shortName ++ "/chat/completions?api-version=2023-05-15",
           headers := headerSet t.headers "Content-Type" "application/json" }
  else if provider = "openai" then
    let apiKey := (headerGet t.headers "api-key").getD ""
    some { url := templateURL t,
           headers := headerSet
             (headerSet (headerDel t.headers "api-key") "Authorization" ("Bearer " ++ apiKey))
             "Content-Type" "application/json" }
  else none

/-! ## Backoff schedule. -/

/-- Modelled from the spec: the sleep step of the retry loop, whose
implementation is outside the given sources. Attempt zero runs
immediately; attempt k for positive k sleeps the backoff base times
two to the power k minus one, matching the per-iteration rule of the
retry loop, the measured-delay property, and the documented example
schedule (base, then twice base, then four times base). -/
def backoffSleep (base : ℚ) (attempt : Nat) : ℚ :=
  if attempt > 0 then base * 2 ^ (attempt - 1) else 0

/-! ## Public entry point: context and body handling, embedded from the
client source file. -/

/-- Go context as the engine observes it: whether it is cancelled and
whether the notdiamond client value is attached. -/
structure GoContext where
  cancelled : Bool
  hasClientValue : Bool

/-- Embeds context.Background(): never cancelled, carries no value. -/
def contextBackground : GoContext := { cancelled := false, hasClientValue := false }

/-- Embeds context.WithValue(ctx, clientKey, c): same cancellation
signal, with the client value attached. -/
def contextWithClientValue (ctx : GoContext) : GoContext :=
  { ctx with hasClientValue := true }

/-- Readable byte stream with a position, modelling an io.Reader over
a buffer. -/
structure BodyReader where
  data : List Nat
  pos : Nat

/-- Embeds io.ReadAll on a buffered reader: yields the unread suffix
and leaves the reader exhausted. -/
def readAll (r : BodyReader) : List Nat := r.data.drop r.pos

/-- Fresh reader over a byte buffer, as produced by
io.NopCloser(bytes.NewBuffer(b)). -/
def freshReader (b : List Nat) : BodyReader := { data := b, pos := 0 }

/-- Inbound HTTP request as the entry point sees it: a context and an
optional body reader. -/
structure DoRequest where
  ctx : GoContext
  body : Option BodyReader

/-- Embeds req.Clone(ctx): same body reference, new context. -/
def requestClone (req : DoRequest) (ctx : GoContext) : DoRequest :=
  { req with ctx := ctx }

/-- Embeds the body and context handling of the public Client.Do: the
outbound request is a clone of the inbound one onto a fresh background
context carrying the client value; when a body is present it is read
in full, and both the outbound request and the caller request receive
fresh readers over the bytes that were read. Returns the pair of the
outbound request and the caller request as left after the call. -/
def clientDoPrepare (req : DoRequest) : DoRequest × DoRequest :=
  let ctx := contextWithClientValue contextBackground
  let newReq := requestClone req ctx
  match req.body with
  | none => (newReq, req)
  | some r =>
    let bodyBytes := readAll r
    ({ newReq with body := some (freshReader bodyBytes) },
     { req with body := some (freshReader bodyBytes) })

/-! ## JSON extraction helpers. -/

/-- JSON value, the shape consumed by the extraction helpers. -/
inductive Json where
  | null : Json
  | jbool (b : Bool) : Json
  | num (q : ℚ) : Json
  | str (s : String) : Json
  | arr (elems : List Json) : Json
  | obj (fields : List (String × Json)) : Json

/-- Looks up a field of a JSON object field list. -/
def jsonLookup (k : String) (fields : List (String × Json)) : Option Json :=
  alistLookup k fields

/-- Decodes the fields of a JSON object as string pairs; a non-string
value anywhere fails the decode. -/
def decodeMessageFields : List (String × Json) → Option (List (String × String))
  | [] => some []
  | (k, .str v) :: rest =>
    match decodeMessageFields rest with
    | some tl => some ((k, v) :: tl)
    | none => none
  | _ => none

/-- Decodes one JSON value as a role/content style string map, as the
Go unmarshalling of a message does: an object all of whose values are
strings; anything else fails. -/
def decodeMessage : Json → Option Message
  | .obj fields => decodeMessageFields fields
  | _ => none

/-- Decodes a list of JSON values as messages; any failure fails the
whole decode, as Go unmarshalling does. -/
def decodeMessages : List Json → Option (List Message)
  | [] => some []
  | j :: js =>
    match decodeMessage j with
    | some m =>
      match decodeMessages js with
      | some ms => some (m :: ms)
      | none => none
    | none => none

/-- Modelled from the spec: extractMessagesFromRequest, whose
implementation is outside the given sources (only its tests are
present). The request body is given as an optional JSON value, none
standing for an absent or unparsable body. The field named messages
must hold an array of role/content maps; in every other case the
empty list is returned. -/
def extractMessagesFromRequest (body : Option Json) : List Message :=
  match body with
  | some (.obj fields) =>
    match jsonLookup "messages" fields with
    | some (.arr elems) =>
      match decodeMessages elems with
      | some ms => ms
      | none => []
    | _ => []
  | _ => []

/-- Modelled from the spec: extractModelFromRequest, whose
implementation is outside the given sources (only its tests are
present). Returns the string value of the field named model when the
body parses and that field holds a string; otherwise returns the
empty string. -/
def extractModelFromRequest (body : Option Json) : String :=
  match body with
  | some (.obj fields) =>
    match jsonLookup "model" fields with
    | some (.str s) => s
    | _ => ""
  | _ => ""

end NotDiamond

namespace NotDiamond

/-! ## Helper lemmas about association-list lookups and headers. -/

/-- Lookup on a cons cell is decided by the head key. -/
theorem alistLookup_cons {α : Type} (a : String × α) (l : List (String × α)) (k : String) :
    alistLookup k (a :: l) = if a.1 = k then some a.2 else alistLookup k l := by
  by_cases h : a.1 = k
  · simp [alistLookup, List.find?, h]
  · have hb : (a.1 == k) = false := beq_eq_false_iff_ne.mpr h
    simp [alistLookup, List.find?, hb, h]

/-- Removing all entries for one key leaves lookups of other keys
unchanged. -/
theorem alistLookup_filter_ne {α : Type} (l : List (String × α)) (k k' : String)
    (h : k' ≠ k) :
    alistLookup k' (l.filter (fun p => !(p.1 == k))) = alistLookup k' l := by
  induction l with
  | nil => rfl
  | cons a rest ih =>
    rw [List.filter_cons]
    by_cases hk : a.1 = k
    · simp only [hk, beq_self_eq_true, Bool.not_true, if_false, Bool.false_eq_true]
      rw [ih, alistLookup_cons]
      have hne : ¬ a.1 = k' := by rw [hk]; exact fun hh => h hh.symm
      simp [hne]
    · have : (!(a.1 == k)) = true := by simp [hk]
      rw [if_pos this, alistLookup_cons, alistLookup_cons, ih]

/-- Reading a header just set yields the new value. -/
theorem headerGet_set_same (hs : List (String × String)) (k v : String) :
    headerGet (headerSet hs k v) k = some v := by
  simp [headerGet, headerSet, alistLookup, List.find?]

/-- Setting one header leaves the others unchanged. -/
theorem headerGet_set_ne (hs : List (String × String)) (k v k' : String)
    (h : k' ≠ k) :
    headerGet (headerSet hs k v) k' = headerGet hs k' := by
  unfold headerGet headerSet
  rw [alistLookup_cons]
  rw [if_neg (fun hh => h hh.symm)]
  exact alistLookup_filter_ne hs k k' h

/-- Reading a deleted header yields nothing. -/
theorem headerGet_del_same (hs : List (String × String)) (k : String) :
    headerGet (headerDel hs k) k = none := by
  unfold headerGet headerDel alistLookup
  rw [List.find?_eq_none.mpr]
  · rfl
  · intro p hp
    have := List.of_mem_filter hp
    simpa using this

/-- Deleting one header leaves the others unchanged. -/
theorem headerGet_del_ne (hs : List (String × String)) (k k' : String)
    (h : k' ≠ k) :
    headerGet (headerDel hs k) k' = headerGet hs k' :=
  alistLookup_filter_ne hs k k' h

/-! ## Claim C1: retry budget precedence. -/

/-- Claim C1: for every model M and last-seen status S, the effective
per-model attempt budget follows this precedence: a per-model
status-code entry for (M, S) wins; otherwise a global status-code
entry for S wins; otherwise the MaxRetries entry for M applies, and
with no MaxRetries entry the budget is one. -/
theorem getMaxRetriesForStatus_precedence
    (maxRetries : List (String × Nat)) (M : String) (S : Nat) :
    (∀ pm sm v, alistLookup M pm = some sm → alistLookup (toString S) sm = some v →
      getMaxRetriesForStatus maxRetries (.perModel pm) M S = v) ∧
    (∀ g v, alistLookup (toString S) g = some v →
      getMaxRetriesForStatus maxRetries (.global g) M S = v) ∧
    (∀ pm, alistLookup M pm = none →
      getMaxRetriesForStatus maxRetries (.perModel pm) M S =
        (alistLookup M maxRetries).getD 1) ∧
    (∀ pm sm, alistLookup M pm = some sm → alistLookup (toString S) sm = none →
      getMaxRetriesForStatus maxRetries (.perModel pm) M S =
        (alistLookup M maxRetries).getD 1) ∧
    (∀ g, alistLookup (toString S) g = none →
      getMaxRetriesForStatus maxRetries (.global g) M S =
        (alistLookup M maxRetries).getD 1) ∧
    (getMaxRetriesForStatus maxRetries .absent M S =
      (alistLookup M maxRetries).getD 1) ∧
    (∀ r, alistLookup M maxRetries = some r → (alistLookup M maxRetries).getD 1 = r) ∧
    (alistLookup M maxRetries = none → (alistLookup M maxRetries).getD 1 = 1) := by
  refine ⟨?_, ?_, ?_, ?_, ?_, ?_, ?_, ?_⟩
  · intro pm sm v h1 h2
    simp [getMaxRetriesForStatus, h1, h2]
  · intro g v h1
    simp [getMaxRetriesForStatus, h1]
  · intro pm h1
    simp [getMaxRetriesForStatus, h1]
  · intro pm sm h1 h2
    simp [getMaxRetriesForStatus, h1, h2]
  · intro g h1
    simp [getMaxRetriesForStatus, h1]
  · rfl
  · intro r h1
    simp [h1]
  · intro h1
    simp [h1]

/-- Witness for claim C1: a per-model entry for (openai/gpt-4, 429)
set to five overrides the MaxRetries value of three. -/
theorem getMaxRetriesForStatus_precedence_witness :
    getMaxRetriesForStatus [("openai/gpt-4", 3)]
      (.perModel [("openai/gpt-4", [("429", 5)])]) "openai/gpt-4" 429 = 5 :=
  (getMaxRetriesForStatus_precedence [("openai/gpt-4", 3)] "openai/gpt-4" 429).1
    [("openai/gpt-4", [("429", 5)])] [("429", 5)] 5 (by decide) (by decide)

/-- Sanity check: the budget computation agrees with every recorded
test vector of the repository. -/
theorem getMaxRetriesForStatus_matches_tests :
    getMaxRetriesForStatus [("openai/gpt-4", 3)]
      (.global [("429", 4)]) "openai/gpt-4" 429 = 4 ∧
    getMaxRetriesForStatus [("openai/gpt-4", 3)]
      (.global [("500", 5)]) "openai/gpt-4" 429 = 3 ∧
    getMaxRetriesForStatus [] (.global []) "openai/gpt-4" 429 = 1 ∧
    getMaxRetriesForStatus [("openai/gpt-4", 3)]
      (.perModel [("openai/gpt-4", [("500", 5)])]) "openai/gpt-4" 429 = 3 ∧
    getMaxRetriesForStatus [("openai/gpt-4", 3)]
      (.perModel [("azure/gpt-4", [("429", 5)])]) "openai/gpt-4" 429 = 3 := by
  decide

/-! ## Claim C2: rolling-latency health check. -/

/-- Claim C2: the health check returns healthy exactly when the
qualifying window is empty or its arithmetic mean latency is strictly
below the threshold, the qualifying window never holds more than ten
records, and the effective recovery window never exceeds one hour. -/
theorem checkModelHealth_meanWindow_spec (store : List LatencyRecord)
    (modelFull : String) (cfg : HealthConfig) (now : ℚ) :
    (CheckModelHealth store modelFull cfg now = true ↔
      (recentLatencies store modelFull now cfg = [] ∨
        (recentLatencies store modelFull now cfg).sum /
          ((recentLatencies store modelFull now cfg).length : ℚ) <
          cfg.avgLatencyThreshold)) ∧
    (recentLatencies store modelFull now cfg).length ≤ 10 ∧
    effectiveNoOfCalls cfg.noOfCalls ≤ 10 ∧
    effectiveRecoveryWindow cfg.recoveryTime ≤ 3600 := by
  refine ⟨?_, ?_, ?_, ?_⟩
  · unfold CheckModelHealth
    by_cases hl : recentLatencies store modelFull now cfg = []
    · simp [hl]
    · have hlen : (recentLatencies store modelFull now cfg).length ≠ 0 := by
        simpa [List.length_eq_zero] using hl
      simp [hlen, hl]
  · unfold recentLatencies
    rw [List.length_map]
    calc (List.take (effectiveNoOfCalls cfg.noOfCalls) _).length
        ≤ effectiveNoOfCalls cfg.noOfCalls := by
          rw [List.length_take]; exact min_le_left _ _
      _ ≤ 10 := min_le_right _ _
  · exact min_le_right _ _
  · exact min_le_right _ _

/-- Sanity check: the health model agrees with the recorded test
scenarios: mean 2.5 below threshold 3 is healthy, adding two latencies
of 10 pushes the mean above 3 and turns unhealthy, no records is
healthy, a recent high latency is unhealthy, a record older than the
recovery window is ignored, and a recovery window above one hour is
clamped to one hour. -/
theorem checkModelHealth_matches_tests :
    CheckModelHealth
      [⟨0, "openai/gpt-4o", 1⟩, ⟨1, "openai/gpt-4o", 2⟩,
       ⟨2, "openai/gpt-4o", 3⟩, ⟨3, "openai/gpt-4o", 4⟩]
      "openai/gpt-4o" ⟨10, 600, 3⟩ 4 = true ∧
    CheckModelHealth
      [⟨0, "openai/gpt-4o", 1⟩, ⟨1, "openai/gpt-4o", 2⟩,
       ⟨2, "openai/gpt-4o", 3⟩, ⟨3, "openai/gpt-4o", 4⟩,
       ⟨4, "openai/gpt-4o", 10⟩, ⟨5, "openai/gpt-4o", 10⟩]
      "openai/gpt-4o" ⟨10, 600, 3⟩ 5 = false ∧
    CheckModelHealth [] "m" ⟨5, 60, 100⟩ 0 = true ∧
    CheckModelHealth [⟨0, "model_over", 200⟩] "model_over" ⟨5, 60, 100⟩ 30 = false ∧
    CheckModelHealth [⟨-120, "model_recovered", 200⟩]
      "model_recovered" ⟨5, 60, 100⟩ 0 = true ∧
    CheckModelHealth [⟨-5400, "model_clamped", 200⟩]
      "model_clamped" ⟨5, 7200, 100⟩ 0 = true := by
  refine ⟨?_, ?_, ?_, ?_, ?_, ?_⟩ <;>
    norm_num [CheckModelHealth, recentLatencies, effectiveNoOfCalls,
      effectiveRecoveryWindow, List.filter]

end NotDiamond

namespace NotDiamond

/-! ## Claim C3: inbound context cancellation. -/

/-- Supporting fact: the context attached to the outbound request built
by the public Do entry point is never cancelled, whatever the inbound
request carried, because it is derived from a fresh background
context. -/
theorem clientDo_outbound_context_never_cancelled (req : DoRequest) :
    ((clientDoPrepare req).1).ctx.cancelled = false := by
  unfold clientDoPrepare
  cases req.body <;> rfl

/-- Claim C3 fails on the code: for an inbound request whose context is
already cancelled, the request handed to the engine carries a fresh
background-derived context that is not cancelled, so the in-flight
attempt is not cancelled at the transport level and the cancellation
cannot be surfaced. -/
theorem clientDo_discards_inbound_cancellation :
    ((clientDoPrepare
        { ctx := { cancelled := true, hasClientValue := false },
          body := none }).1).ctx.cancelled = false := rfl

/-! ## Claim C4: provider adapter URL and headers. -/

/-- Claim C4: for a template holding an api-key header and no
Authorization header, the azure request keeps the api-key header, sets
no Authorization header, and uses exactly the deployments URL built
from the template scheme and host; the openai request keeps the
template URL, carries Authorization Bearer with the template api-key
value, and drops the api-key header; both carry the JSON content
type. -/
theorem buildProviderRequest_headers_url_spec (t : ProviderTemplate)
    (shortName key : String)
    (hkey : headerGet t.headers "api-key" = some key)
    (hauth : headerGet t.headers "Authorization" = none) :
    (∃ w, buildProviderRequest "azure" t shortName = some w ∧
      w.url = t.scheme ++ "://" ++ t.host ++ "/openai/deployments/" ++ shortName ++
        "/chat/completions?api-version=2023-05-15" ∧
      headerGet w.headers "api-key" = some key ∧
      headerGet w.headers "Authorization" = none ∧
      headerGet w.headers "Content-Type" = some "application/json") ∧
    (∃ w, buildProviderRequest "openai" t shortName = some w ∧
      w.url = templateURL t ∧
      headerGet w.headers "Authorization" = some ("Bearer " ++ key) ∧
      headerGet w.headers "api-key" = none ∧
      headerGet w.headers "Content-Type" = some "application/json") := by
  constructor
  · refine ⟨_, rfl, rfl, ?_, ?_, ?_⟩
    · rw [headerGet_set_ne _ _ _ _ (by decide)]
      exact hkey
    · rw [headerGet_set_ne _ _ _ _ (by decide)]
      exact hauth
    · exact headerGet_set_same _ _ _
  · have hb : buildProviderRequest "openai" t shortName =
        some { url := templateURL t,
               headers := headerSet
                 (headerSet (headerDel t.headers "api-key") "Authorization"
                   ("Bearer " ++ key))
                 "Content-Type" "application/json" } := by
      unfold buildProviderRequest
      rw [if_neg (by decide), if_pos rfl, hkey]
      rfl
    refine ⟨_, hb, rfl, ?_, ?_, ?_⟩
    · rw [headerGet_set_ne _ _ _ _ (by decide), headerGet_set_same]
    · rw [headerGet_set_ne _ _ _ _ (by decide), headerGet_set_ne _ _ _ _ (by decide)]
      exact headerGet_del_same _ _
    · exact headerGet_set_same _ _ _

/-- Witness for claim C4: the azure template of the recorded test
yields exactly the expected deployments URL with the api-key header
preserved. -/
theorem buildProviderRequest_headers_url_spec_witness :
    ∃ w, buildProviderRequest "azure"
        { scheme := "https", host := "myresource.azure.openai.com", pathAndQuery := "",
          headers := [("api-key", "test-key")] } "gpt-4" = some w ∧
      w.url = "https://myresource.azure.openai.com/openai/deployments/gpt-4/chat/completions?api-version=2023-05-15" ∧
      headerGet w.headers "api-key" = some "test-key" ∧
      headerGet w.headers "Authorization" = none ∧
      headerGet w.headers "Content-Type" = some "application/json" :=
  (buildProviderRequest_headers_url_spec
    { scheme := "https", host := "myresource.azure.openai.com", pathAndQuery := "",
      headers := [("api-key", "test-key")] } "gpt-4" "test-key" rfl rfl).1

/-! ## Claim C5: backoff schedule. -/

/-- Claim C5 fails as stated: with backoff base one, attempt zero is
preceded by no sleep at all, while the claimed formula base times two
to the k demands a sleep of one second there. -/
theorem backoffSleep_attempt_zero_counterexample :
    backoffSleep 1 0 = 0 ∧ (1 : ℚ) * 2 ^ (0 : Nat) ≠ 0 :=
  ⟨rfl, by norm_num⟩

/-- Claim C5 amended: attempt zero runs with no preceding sleep, and
the sleep before attempt k for k at least one is exactly the backoff
base times two to the power k minus one. -/
theorem backoffSleep_schedule_amended (base : ℚ) (k : Nat) :
    backoffSleep base 0 = 0 ∧
    (1 ≤ k → backoffSleep base k = base * 2 ^ (k - 1)) := by
  constructor
  · rfl
  · intro hk
    unfold backoffSleep
    rw [if_pos (show k > 0 by omega)]

/-- Witness for claim C5: with base one half, attempt zero sleeps
nothing and attempt three sleeps one half times four. -/
theorem backoffSleep_schedule_amended_witness :
    backoffSleep (1/2 : ℚ) 0 = 0 ∧
    backoffSleep (1/2 : ℚ) 3 = (1/2 : ℚ) * 2 ^ (3 - 1 : Nat) :=
  ⟨(backoffSleep_schedule_amended (1/2) 3).1,
   (backoffSleep_schedule_amended (1/2) 3).2 (by decide)⟩

/-! ## Claim C6: model identifier validation. -/

/-- Claim C6 fails on the code: the string with provider openai and an
empty model half is accepted by validateModelName, although the claim
requires both halves to be non-empty. -/
theorem validateModelName_accepts_empty_model_half :
    validateModelName "openai/" = none := by decide

/-- Claim C6 amended: validation accepts a model string exactly when
it is non-empty, splits on the slash into exactly two parts, and the
provider half is azure or openai; the model half may be empty, so a
string such as provider slash nothing is accepted. -/
theorem validateModelName_accept_iff (m : String) :
    validateModelName m = none ↔
      (m ≠ "" ∧ ∃ provider rest, goSplitSlash m = [provider, rest] ∧
        (provider = "azure" ∨ provider = "openai")) := by
  unfold validateModelName
  by_cases hm : m = ""
  · simp [hm]
  · simp only [hm, if_false, ne_eq, not_false_iff, true_and]
    cases hsplit : goSplitSlash m with
    | nil => simp [hsplit]
    | cons p rest =>
      cases rest with
      | nil => simp [hsplit]
      | cons q rest2 =>
        cases rest2 with
        | nil =>
          unfold validateProvider ClientTypeAzure ClientTypeOpenAI
          by_cases hp : p = "azure" ∨ p = "openai"
          · simp [hsplit, hp]
          · simp [hsplit, hp]
        | cons r rest3 => simp [hsplit]

/-! ## Claim C7: weighted models validation. -/

/-- Claim C7: weighted-models validation succeeds only when the model
list is non-empty, every weight is strictly positive, and the weights
sum to one within the tolerance of one millionth; equivalently any
violation makes construction fail. -/
theorem validateWeightedModels_success_conditions (w : List (String × ℚ))
    (h : validateWeightedModels w = none) :
    w ≠ [] ∧ (∀ p ∈ w, 0 < p.2) ∧
    |((w.map Prod.snd).sum - 1)| ≤ weightEpsilon := by
  unfold validateWeightedModels at h
  by_cases hw : w.isEmpty
  · simp [hw] at h
  · simp only [hw, if_false] at h
    refine ⟨by simpa [List.isEmpty_iff] using hw, ?_, ?_⟩
    · intro p hp
      unfold validateWeights at h
      cases hfind : w.find? (fun p => decide (p.2 ≤ 0)) with
      | some q => rw [hfind] at h; simp at h
      | none =>
        have := List.find?_eq_none.mp hfind p hp
        simpa using this
    · unfold validateWeights at h
      cases hfind : w.find? (fun p => decide (p.2 ≤ 0)) with
      | some q => rw [hfind] at h; simp at h
      | none =>
        rw [hfind] at h
        simp only at h
        by_cases hc : (w.map Prod.snd).sum < 1 - weightEpsilon ∨
            (w.map Prod.snd).sum > 1 + weightEpsilon
        · simp [hc] at h
        · push_neg at hc
          rw [abs_le]
          constructor <;> linarith [hc.1, hc.2]

/-- Witness for claim C7: the singleton weighted configuration with
weight one validates, and therefore satisfies all three conditions. -/
theorem validateWeightedModels_success_conditions_witness :
    ([("openai/gpt-4", (1 : ℚ))] ≠ ([] : List (String × ℚ))) ∧
    (∀ p ∈ [("openai/gpt-4", (1 : ℚ))], 0 < p.2) ∧
    |(([("openai/gpt-4", (1 : ℚ))].map Prod.snd).sum - 1)| ≤ weightEpsilon :=
  validateWeightedModels_success_conditions [("openai/gpt-4", (1 : ℚ))] (by
    unfold validateWeightedModels
    rw [if_neg (by decide)]
    have h1 : validateWeights [("openai/gpt-4", (1 : ℚ))] = none := by
      unfold validateWeights
      rw [show List.find? (fun p => decide (p.2 ≤ 0)) [("openai/gpt-4", (1 : ℚ))] = none
          from by decide]
      rw [if_neg (by norm_num [weightEpsilon])]
    rw [h1]
    decide)

/-! ## Claim C8: canonical message extraction. -/

/-- Claim C8: message extraction returns the empty list for an absent
or unparsable body and for a body without a messages field, and
returns exactly the decoded role/content maps when the messages field
holds an array of such maps. -/
theorem extractMessagesFromRequest_spec :
    extractMessagesFromRequest none = [] ∧
    (∀ fields, jsonLookup "messages" fields = none →
      extractMessagesFromRequest (some (.obj fields)) = []) ∧
    (∀ fields elems ms, jsonLookup "messages" fields = some (.arr elems) →
      decodeMessages elems = some ms →
      extractMessagesFromRequest (some (.obj fields)) = ms) := by
  refine ⟨rfl, ?_, ?_⟩
  · intro fields h
    simp [extractMessagesFromRequest, h]
  · intro fields elems ms h1 h2
    simp [extractMessagesFromRequest, h1, h2]

/-- Witness for claim C8: the recorded two-message payload is
extracted intact. -/
theorem extractMessagesFromRequest_spec_witness :
    extractMessagesFromRequest (some (.obj
      [("messages", .arr
        [.obj [("role", .str "user"), ("content", .str "Hello")],
         .obj [("role", .str "assistant"), ("content", .str "Hi there")]])])) =
      [[("role", "user"), ("content", "Hello")],
       [("role", "assistant"), ("content", "Hi there")]] :=
  extractMessagesFromRequest_spec.2.2 _ _ _ rfl rfl

/-! ## Claim C9: caller body restoration. -/

/-- Claim C9: after the public Do entry point prepares the outbound
request, the caller request again holds a fresh reader positioned at
the start over the complete original body bytes, and reading it yields
those bytes. -/
theorem clientDo_restores_caller_body (req : DoRequest) (r : BodyReader)
    (hbody : req.body = some r) (hfresh : r.pos = 0) :
    ((clientDoPrepare req).2).body = some (freshReader r.data) ∧
    readAll (freshReader r.data) = r.data := by
  constructor
  · simp only [clientDoPrepare, hbody]
    simp [readAll, hfresh]
  · simp [readAll, freshReader]

/-- Witness for claim C9: a three-byte body is restored to a fresh
reader over the same three bytes. -/
theorem clientDo_restores_caller_body_witness :
    ((clientDoPrepare
        { ctx := { cancelled := false, hasClientValue := false },
          body := some { data := [1, 2, 3], pos := 0 } }).2).body =
      some (freshReader [1, 2, 3]) ∧
    readAll (freshReader [1, 2, 3]) = [1, 2, 3] :=
  clientDo_restores_caller_body
    { ctx := { cancelled := false, hasClientValue := false },
      body := some { data := [1, 2, 3], pos := 0 } }
    { data := [1, 2, 3], pos := 0 } rfl rfl

/-! ## Claim C10: declared model extraction. -/

/-- Claim C10: the declared-model extraction returns the string value
of the model field when present, and the empty string when the body is
absent or unparsable, the field is missing, or its value is not a
string. -/
theorem extractModelFromRequest_spec :
    extractModelFromRequest none = "" ∧
    (∀ fields, jsonLookup "model" fields = none →
      extractModelFromRequest (some (.obj fields)) = "") ∧
    (∀ fields j, jsonLookup "model" fields = some j → (∀ s, j ≠ .str s) →
      extractModelFromRequest (some (.obj fields)) = "") ∧
    (∀ fields s, jsonLookup "model" fields = some (.str s) →
      extractModelFromRequest (some (.obj fields)) = s) := by
  refine ⟨rfl, ?_, ?_, ?_⟩
  · intro fields h
    simp [extractModelFromRequest, h]
  · intro fields j h1 h2
    cases j with
    | str s => exact absurd rfl (h2 s)
    | null => simp [extractModelFromRequest, h1]
    | jbool b => simp [extractModelFromRequest, h1]
    | num q => simp [extractModelFromRequest, h1]
    | arr es => simp [extractModelFromRequest, h1]
    | obj fs => simp [extractModelFromRequest, h1]
  · intro fields s h1
    simp [extractModelFromRequest, h1]

/-- Witness for claim C10: a numeric model field yields the empty
string and a string model field yields its value. -/
theorem extractModelFromRequest_spec_witness :
    extractModelFromRequest (some (.obj [("model", .num 123)])) = "" ∧
    extractModelFromRequest (some (.obj [("model", .str "gpt-4")])) = "gpt-4" :=
  ⟨extractModelFromRequest_spec.2.2.1 _ (.num 123) rfl (fun s h => by cases h),
   extractModelFromRequest_spec.2.2.2 _ "gpt-4" rfl⟩

end NotDiamond
